import Mathlib

/-!
Verification of the Elasticsearch filter-compilation core of qlbridge,
`generators/elasticsearch/es2gen/bridgeutil.go`.

The file embeds the five compilation functions of that file — `scalar`,
`makeRange`, `makeBetween`, `makeWildcard`, `esName` and
`makeTimeWindowQuery` — as executable Lean functions, together with models
of the external collaborators they consume (expression leaves, the field
mapper and field descriptor, and the filter DSL value types), which live in
other packages of the repository and are therefore modelled from the
specification of their interface boundary.
-/

namespace Es2gen

/-- Go `float64` values. The compiler never computes with floats: floats are
extracted from expression leaves or produced by `strconv.ParseFloat` and are
embedded unchanged into the output filters, so only their identity matters.
We model them as an opaque carrier (conceptually the 64 bit pattern) with
decidable equality. -/
structure Float64 where
  bits : Nat
deriving DecidableEq

/-- A Go `interface\x7b\x7d` scalar as produced by `scalar` and embedded in
filters: a string, a 64-bit integer, or a 64-bit float. Every value the
compiler constructs or passes through falls in these three cases. -/
inductive GoVal where
  | vstr : String → GoVal
  | vint : Int → GoVal
  | vfloat : Float64 → GoVal
deriving DecidableEq

/-- Modelled from the spec: `RangeQry`, the four optional bounds of a range
filter (`gte`, `lte`, `gt`, `lt`), unpopulated bounds omitted. Field order:
GTE, LTE, GT, LT. -/
structure RangeQry where
  GTE : Option GoVal
  LTE : Option GoVal
  GT : Option GoVal
  LT : Option GoVal
deriving DecidableEq

/-- Modelled from the spec: the closed set of filter DSL values owned by the
core — `Term\x7bfield, value\x7d`, `RangeFilter` keyed by one field,
`Wildcard\x7bfield, pattern\x7d`, the ordered conjunction `And`, and the
`Nested\x7bpath, filter\x7d` envelope (the Go pair `nested`/`NestedFilter`
collapsed into one constructor carrying the path and the wrapped filter). -/
inductive Filter where
  | term : String → GoVal → Filter
  | range : String → RangeQry → Filter
  | wildcard : String → String → Filter
  | andF : List Filter → Filter
  | nested : String → Filter → Filter

/-- Modelled from the spec: the runtime type tag of a `ValueNode`'s value
(`value.Type()`); `unknownT` stands for every other runtime type. -/
inductive ValueType where
  | boolT
  | intT
  | stringT
  | timeT
  | numberT
  | nullT
  | unknownT
deriving DecidableEq

/-- Modelled from the spec: a `ValueNode` leaf (TypedValueLeaf): its runtime
type tag, its canonical string rendering (`n.String()`), and, when the
underlying value implements the `floatval` interface, its float accessor. -/
structure ValueLeaf where
  vtype : ValueType
  stringRendering : String
  floatAccessor : Option Float64
deriving DecidableEq

/-- Modelled from the spec: an `IdentityNode` (IdentifierLeaf): its
normalized text, its original unnormalized text, and whether it is
syntactically namespaced (`HasLeftRight()`). -/
structure IdentNode where
  text : String
  originalText : String
  hasLeftRight : Bool
deriving DecidableEq

/-- Modelled from the spec: the expression-node variants consumed by the
core. `otherNode` stands for every other node kind of the expression
package, carrying its Go type name. -/
inductive Node where
  | stringNode : String → Node
  | numberNode : Bool → Int → Float64 → Node
  | valueNode : ValueLeaf → Node
  | identityNode : IdentNode → Node
  | otherNode : String → Node
deriving DecidableEq

/-- Modelled from the spec: `gentypes.FieldType`, the field descriptor. The
derived predicates `Nested()` and `Numeric()` and the derived operations
`PrefixAndValue` and `PathAndPrefix` are business rules owned by the mapping
collaborator — the core only calls them — so they are modelled as opaque
components of the descriptor. `PathAndPrefixFn` models `PathAndPrefix`. -/
structure FieldType where
  Field : String
  Path : String
  NestedB : Bool
  NumericB : Bool
  PrefixAndValue : GoVal → String × GoVal
  PathAndPrefixFn : String → String

/-- Modelled from the spec: the lexer token types routed to the range
builder; `otherTok` stands for every other token type, carrying its name. -/
inductive TokenType where
  | tokenGE
  | tokenLE
  | tokenGT
  | tokenLT
  | otherTok : String → TokenType
deriving DecidableEq

/-- The compilation-error kinds of the core (spec section 7): `invalidNode`
models the `expected an identity` error of `esName`, `missingField` the
`gentypes.MissingField` error carrying the original identifier text,
`unsupportedType` the `unsupported type for comparison` error, and
`unsupportedOperator` the `unsupported range operator` error carrying the
offending operator. -/
inductive EsErr where
  | invalidNode : EsErr
  | missingField : String → EsErr
  | unsupportedType : EsErr
  | unsupportedOperator : TokenType → EsErr
deriving DecidableEq

/-- Go `strconv.ParseBool`, per its documentation: it accepts 1, t, T, TRUE,
true, True, 0, f, F, FALSE, false, False and rejects everything else. -/
def parseBool (s : String) : Option Bool :=
  if s = "1" ∨ s = "t" ∨ s = "T" ∨ s = "true" ∨ s = "TRUE" ∨ s = "True" then some true
  else if s = "0" ∨ s = "f" ∨ s = "F" ∨ s = "false" ∨ s = "FALSE" ∨ s = "False" then
    some false
  else none

/-- `scalar` (bridgeutil.go lines 27-59): returns the JSONable scalar for a
leaf node, or `none` where the Go function returns ok=false. String leaves
yield their text; number leaves their int64 when lexed as an integer, else
their float64; value leaves of bool/int/string/time type their canonical
string rendering, of number type their float accessor when present; identity
leaves their text exactly when `strconv.ParseBool` accepts it. -/
def scalar (node : Node) : Option GoVal :=
  match node with
  | .stringNode t => some (.vstr t)
  | .numberNode isInt i f => if isInt then some (.vint i) else some (.vfloat f)
  | .valueNode v =>
      match v.vtype with
      | .boolT => some (.vstr v.stringRendering)
      | .intT => some (.vstr v.stringRendering)
      | .stringT => some (.vstr v.stringRendering)
      | .timeT => some (.vstr v.stringRendering)
      | .numberT =>
          match v.floatAccessor with
          | some f => some (.vfloat f)
          | none => none
      | .nullT => none
      | .unknownT => none
  | .identityNode n =>
      match parseBool n.text with
      | some _ => some (.vstr n.text)
      | none => none
  | .otherNode _ => none

/-- Modelled from the spec: the `Term` helper of the es2gen package builds
the exact-match filter clause `Term\x7bfield, value\x7d`; every call site in
bridgeutil.go passes a string value. -/
def Term (f v : String) : Filter := Filter.term f (GoVal.vstr v)

/-- Modelled from the spec: the `Wildcard` helper builds the pattern-match
clause `Wildcard\x7bfield, pattern\x7d`. -/
def Wildcard (f pat : String) : Filter := Filter.wildcard f pat

/-- Modelled from the spec: the `Nested(lhs, filter)` helper wraps a filter
in a `Nested` envelope whose path is the descriptor's `Path` (spec section
4.3 step 5: wrap in a Nested envelope using lhs.Path). -/
def Nested (lhs : FieldType) (f : Filter) : Filter := Filter.nested lhs.Path f

/-- Numeric coercion step of `makeRange` (bridgeutil.go lines 71-78): if the
field is numeric and the scalar is a string that `strconv.ParseFloat`
parses, replace it by the parsed float; otherwise leave it unchanged. `pf`
models `strconv.ParseFloat` (Go standard library), treated as an external
parameter: only its success and parsed value matter to the compiler. -/
def coerceNumeric (pf : String → Option Float64) (lhs : FieldType) (v : GoVal) : GoVal :=
  if lhs.NumericB then
    match v with
    | .vstr s =>
        match pf s with
        | some f => .vfloat f
        | none => v
    | _ => v
  else v

/-- Qualification and bound-selection steps of `makeRange` (bridgeutil.go
lines 130-151): if the field is nested, the field name and value are
rewritten via `PrefixAndValue`; the operator selects which single bound of
the range filter is populated; a nested field's range filter is wrapped via
`Nested`; any other operator is an `unsupportedOperator` error. -/
def rangeCore (lhs : FieldType) (op : TokenType) (rhsval : GoVal) : Except EsErr Filter :=
  let fv := if lhs.NestedB then lhs.PrefixAndValue rhsval else (lhs.Field, rhsval)
  let wrap : Filter → Filter := fun r => if lhs.NestedB then Nested lhs r else r
  match op with
  | .tokenGE => .ok (wrap (.range fv.1 ⟨some fv.2, none, none, none⟩))
  | .tokenLE => .ok (wrap (.range fv.1 ⟨none, some fv.2, none, none⟩))
  | .tokenGT => .ok (wrap (.range fv.1 ⟨none, none, some fv.2, none⟩))
  | .tokenLT => .ok (wrap (.range fv.1 ⟨none, none, none, some fv.2⟩))
  | .otherTok s => .error (.unsupportedOperator (.otherTok s))

/-- `makeRange` (bridgeutil.go lines 63-151): extract the right-hand scalar
(`unsupportedType` on failure), apply numeric coercion, then qualification,
bound selection and nested wrapping. The stage decomposition mirrors the
sequential statements of the Go function. -/
def makeRange (pf : String → Option Float64) (lhs : FieldType) (op : TokenType)
    (rhs : Node) : Except EsErr Filter :=
  match scalar rhs with
  | none => .error .unsupportedType
  | some v => rangeCore lhs op (coerceNumeric pf lhs v)

/-- `makeBetween` (bridgeutil.go lines 155-206): two range filters keyed on
`lhs.Field`, GT = lower and LT = upper; a nested field appends the
disambiguating `Term("k", lhs.Field)` clause and wraps the conjunction in a
Nested envelope with path `lhs.Path`; otherwise the conjunction of the two
range clauses is returned directly. -/
def makeBetween (lhs : FieldType) (lower upper : GoVal) : Except EsErr Filter :=
  let lr := Filter.range lhs.Field ⟨none, none, some lower, none⟩
  let ur := Filter.range lhs.Field ⟨none, none, none, some upper⟩
  let fl := [lr, ur]
  if lhs.NestedB then
    .ok (.nested lhs.Path (.andF (fl ++ [Term "k" lhs.Field])))
  else
    .ok (.andF fl)

/-- `makeWildcard` (bridgeutil.go lines 210-241): a nested field's clause
field name is qualified via `PathAndPrefix` (the pattern itself is not
rewritten) and the wildcard clause is conjoined with the
`Term(lhs.Path + ".k", lhs.Field)` disambiguator inside a Nested envelope
with path `lhs.Path`; otherwise the bare wildcard clause is returned. -/
def makeWildcard (lhs : FieldType) (pat : String) : Except EsErr Filter :=
  let fieldName := if lhs.NestedB then lhs.PathAndPrefixFn pat else lhs.Field
  let wc := Wildcard fieldName pat
  if lhs.NestedB then
    .ok (.nested lhs.Path (.andF [wc, Term (lhs.Path ++ ".k") lhs.Field]))
  else
    .ok wc

/-- Helper for `splitN2`: scan the characters for the first '.',
accumulating the reversed prefix. -/
def splitN2Aux : List Char → List Char → List String
  | [], acc => [String.mk acc.reverse]
  | c :: rest, acc =>
      if c = '.' then [String.mk acc.reverse, String.mk rest]
      else splitN2Aux rest (c :: acc)

/-- Go `strings.SplitN(s, ".", 2)` as called by `esName` (the call site
fixes the separator to "."): split `s` around the first '.', yielding the
one-element list `[s]` when no '.' occurs and the two surrounding parts
otherwise. -/
def splitN2 (s : String) : List String := splitN2Aux s.toList []

/-- `esName` (bridgeutil.go lines 244-282): resolve an identity node to a
field descriptor via the mapper `mapf` (`Map`), trying in order the
identifier's text, then — only for a namespaced identifier — its original
text, then — only when the text splits on the first `.` into exactly two
parts — the first part; a non-identity node is an `invalidNode` error, and
exhaustion is `missingField` carrying the original text. -/
def esName (mapf : String → Option FieldType) (n : Node) : Except EsErr FieldType :=
  match n with
  | .identityNode ident =>
      match mapf ident.text with
      | some ft => .ok ft
      | none =>
          match (if ident.hasLeftRight then mapf ident.originalText else none) with
          | some ft => .ok ft
          | none =>
              match splitN2 ident.text with
              | [p1, _p2] =>
                  match mapf p1 with
                  | some ft => .ok ft
                  | none => .error (.missingField ident.originalText)
              | _ => .error (.missingField ident.originalText)
  | _ => .error .invalidNode

/-- Go `strconv.FormatInt(i, 10)`: the decimal rendering of a 64-bit
integer, with a leading minus sign for negative values. -/
def formatInt (i : Int) : String := toString i

/-- `makeTimeWindowQuery` (bridgeutil.go lines 285-323): the conjunction, in
fixed order, of the threshold term, the window term, the `enter` range with
only LTE = ts and the `exit` range with only GTE = ts, wrapped in a Nested
envelope whose path is `lhs.Field` itself. -/
def makeTimeWindowQuery (lhs : FieldType) (threshold window ts : Int) :
    Except EsErr Filter :=
  let fl : List Filter := [
    Term (lhs.Field ++ ".threshold") (formatInt threshold),
    Term (lhs.Field ++ ".window") (formatInt window),
    .range (lhs.Field ++ ".enter") ⟨none, some (.vint ts), none, none⟩,
    .range (lhs.Field ++ ".exit") ⟨some (.vint ts), none, none, none⟩]
  .ok (.nested lhs.Field (.andF fl))

mutual

/-- Number of `Nested` envelopes in a filter tree. -/
def countNested : Filter → Nat
  | .term _ _ => 0
  | .range _ _ => 0
  | .wildcard _ _ => 0
  | .andF fs => countNestedList fs
  | .nested _ f => 1 + countNested f

/-- Number of `Nested` envelopes in a list of filter trees. -/
def countNestedList : List Filter → Nat
  | [] => 0
  | f :: fs => countNested f + countNestedList fs

end

/-- The qualified field name used by `makeRange`: `PrefixAndValue`'s first
component for a nested field, the physical field name otherwise. -/
def qualField (lhs : FieldType) (v : GoVal) : String :=
  if lhs.NestedB then (lhs.PrefixAndValue v).1 else lhs.Field

/-- The qualified value used by `makeRange`: `PrefixAndValue`'s second
component for a nested field, the value itself otherwise. -/
def qualValue (lhs : FieldType) (v : GoVal) : GoVal :=
  if lhs.NestedB then (lhs.PrefixAndValue v).2 else v

/-- Whether a token is one of the four comparison operators the range
builder supports. -/
def isRangeOp : TokenType → Bool
  | .tokenGE => true
  | .tokenLE => true
  | .tokenGT => true
  | .tokenLT => true
  | .otherTok _ => false

/-- Claim C3: for every field descriptor and bounds, `makeBetween` builds
exactly two range filters keyed on `lhs.Field`, one with GT set to the lower
bound and one with LT set to the upper bound, with no field or value
rewriting; a nested field appends exactly one extra `Term` clause with field
key "k" and value `lhs.Field`, conjoins the three clauses in that order and
wraps the conjunction in a Nested envelope with path `lhs.Path`; a
non-nested field yields the conjunction of just the two range clauses. -/
theorem makeBetween_shape (lhs : FieldType) (lower upper : GoVal) :
    makeBetween lhs lower upper =
      .ok (if lhs.NestedB then
             Filter.nested lhs.Path (Filter.andF
               [Filter.range lhs.Field ⟨none, none, some lower, none⟩,
                Filter.range lhs.Field ⟨none, none, none, some upper⟩,
                Filter.term "k" (GoVal.vstr lhs.Field)])
           else
             Filter.andF
               [Filter.range lhs.Field ⟨none, none, some lower, none⟩,
                Filter.range lhs.Field ⟨none, none, none, some upper⟩]) := by
  unfold makeBetween Term
  cases hn : lhs.NestedB <;> simp [hn]

/-- Claim C4: for every field descriptor and pattern, `makeWildcard` on a
nested field qualifies only the field name (via `PathAndPrefix`, the pattern
value is unchanged) and returns the conjunction of the wildcard clause
followed by the `Term` clause with field `lhs.Path + ".k"` and value
`lhs.Field`, wrapped in a Nested envelope with path `lhs.Path`; on a
non-nested field it returns the bare wildcard clause on `lhs.Field`. -/
theorem makeWildcard_shape (lhs : FieldType) (pat : String) :
    makeWildcard lhs pat =
      .ok (if lhs.NestedB then
             Filter.nested lhs.Path (Filter.andF
               [Filter.wildcard (lhs.PathAndPrefixFn pat) pat,
                Filter.term (lhs.Path ++ ".k") (GoVal.vstr lhs.Field)])
           else
             Filter.wildcard lhs.Field pat) := by
  unfold makeWildcard Term Wildcard
  cases hn : lhs.NestedB <;> simp [hn]

/-- Claim C5: for every field descriptor and int64 arguments,
`makeTimeWindowQuery` returns the conjunction of exactly four clauses in
fixed order — the threshold term and the window term rendered as decimal
strings, the `enter` range with only LTE set to the timestamp, and the
`exit` range with only GTE set to the timestamp — wrapped in a Nested
envelope whose path is `lhs.Field` itself, not `lhs.Path`. -/
theorem makeTimeWindowQuery_shape (lhs : FieldType) (threshold window ts : Int) :
    makeTimeWindowQuery lhs threshold window ts =
      .ok (Filter.nested lhs.Field (Filter.andF
        [Filter.term (lhs.Field ++ ".threshold") (GoVal.vstr (formatInt threshold)),
         Filter.term (lhs.Field ++ ".window") (GoVal.vstr (formatInt window)),
         Filter.range (lhs.Field ++ ".enter") ⟨none, some (GoVal.vint ts), none, none⟩,
         Filter.range (lhs.Field ++ ".exit") ⟨some (GoVal.vint ts), none, none, none⟩])) :=
  rfl

/-- Claim C10: for every field descriptor and bound values of any kind,
`makeBetween` succeeds and the GT and LT bound values embedded in its two
range clauses are exactly the given lower and upper arguments, unmodified —
no numeric coercion and no `PrefixAndValue` rewriting is applied — even when
the field is numeric or nested: the result is moreover independent of the
descriptor's `Numeric()` predicate and of its `PrefixAndValue` and
`PathAndPrefix` operations. -/
theorem makeBetween_values_unmodified (lhs : FieldType) (lower upper : GoVal) :
    (∃ tail : List Filter,
      makeBetween lhs lower upper =
        .ok (if lhs.NestedB then
               Filter.nested lhs.Path (Filter.andF
                 ([Filter.range lhs.Field ⟨none, none, some lower, none⟩,
                   Filter.range lhs.Field ⟨none, none, none, some upper⟩] ++ tail))
             else
               Filter.andF
                 [Filter.range lhs.Field ⟨none, none, some lower, none⟩,
                  Filter.range lhs.Field ⟨none, none, none, some upper⟩]))
    ∧ (∀ m2 pav2 papf2,
        makeBetween ⟨lhs.Field, lhs.Path, lhs.NestedB, m2, pav2, papf2⟩ lower upper =
          makeBetween lhs lower upper) := by
  constructor
  · refine ⟨[Filter.term "k" (GoVal.vstr lhs.Field)], ?_⟩
    unfold makeBetween Term
    cases hn : lhs.NestedB <;> simp [hn]
  · intro m2 pav2 papf2
    unfold makeBetween
    rfl

/-- Claim C1: field resolution order. A non-identity node fails with
`invalidNode`. For an identity node the mapper is consulted, in this exact
order, on (1) the identifier's text, (2) — only when the identifier is
namespaced — its original unnormalized text, (3) — only when the text splits
on the first `.` into exactly two parts — the first part; the first
successful lookup's descriptor is returned, and when all applicable attempts
fail the result is `missingField` carrying the original text. -/
theorem esName_fallback_order (mapf : String → Option FieldType) (n : Node)
    (ident : IdentNode) :
    ((∀ i : IdentNode, n ≠ Node.identityNode i) →
      esName mapf n = .error EsErr.invalidNode)
    ∧ (∀ ft, mapf ident.text = some ft →
        esName mapf (Node.identityNode ident) = .ok ft)
    ∧ (∀ ft, mapf ident.text = none → ident.hasLeftRight = true →
        mapf ident.originalText = some ft →
        esName mapf (Node.identityNode ident) = .ok ft)
    ∧ (∀ p1 p2 ft, mapf ident.text = none →
        (ident.hasLeftRight = true → mapf ident.originalText = none) →
        splitN2 ident.text = [p1, p2] → mapf p1 = some ft →
        esName mapf (Node.identityNode ident) = .ok ft)
    ∧ (mapf ident.text = none →
        (ident.hasLeftRight = true → mapf ident.originalText = none) →
        (∀ p1 p2, splitN2 ident.text = [p1, p2] → mapf p1 = none) →
        esName mapf (Node.identityNode ident) =
          .error (.missingField ident.originalText)) := by
  have hlr : ∀ h : ident.hasLeftRight = true → mapf ident.originalText = none,
      (if ident.hasLeftRight then mapf ident.originalText else none) = none := by
    intro h
    cases hb : ident.hasLeftRight with
    | false => simp
    | true => simp [h hb]
  refine ⟨?_, ?_, ?_, ?_, ?_⟩
  · intro h
    cases n with
    | identityNode i => exact absurd rfl (h i)
    | stringNode t => rfl
    | numberNode a b c => rfl
    | valueNode v => rfl
    | otherNode s => rfl
  · intro ft hft
    simp [esName, hft]
  · intro ft htext hb horig
    simp [esName, htext, hb, horig]
  · intro p1 p2 ft htext horig hsplit hp1
    simp [esName, htext, hlr horig, hsplit, hp1]
  · intro htext horig hall
    have h2 := hlr horig
    rcases h : splitN2 ident.text with _ | ⟨p1, _ | ⟨p2, _ | _⟩⟩ <;>
      simp [esName, htext, h2, h]
    simp [hall p1 p2 h]

/-- Claim C2: for every field descriptor, supported comparison operator and
right-hand node whose scalar extraction succeeds, `makeRange` yields a range
filter keyed by the qualified field name (rewritten via `PrefixAndValue`
when the field is nested, the bare field name otherwise) with exactly one
bound populated, chosen by the operator (GE gives GTE, LE gives LTE, GT
gives GT, LT gives LT) and holding the qualified (coerced and, when nested,
rewritten) value; a nested field's range filter is wrapped in exactly one
Nested envelope with path `lhs.Path`, a non-nested one is returned bare. -/
theorem makeRange_shape (pf : String → Option Float64) (lhs : FieldType)
    (op : TokenType) (rhs : Node) (v : GoVal) (hv : scalar rhs = some v)
    (hop : op = TokenType.tokenGE ∨ op = TokenType.tokenLE ∨
           op = TokenType.tokenGT ∨ op = TokenType.tokenLT) :
    ∃ q : RangeQry,
      makeRange pf lhs op rhs =
        .ok (if lhs.NestedB then
               Filter.nested lhs.Path
                 (Filter.range (qualField lhs (coerceNumeric pf lhs v)) q)
             else
               Filter.range (qualField lhs (coerceNumeric pf lhs v)) q)
      ∧ ((op = TokenType.tokenGE ∧
            q = ⟨some (qualValue lhs (coerceNumeric pf lhs v)), none, none, none⟩)
       ∨ (op = TokenType.tokenLE ∧
            q = ⟨none, some (qualValue lhs (coerceNumeric pf lhs v)), none, none⟩)
       ∨ (op = TokenType.tokenGT ∧
            q = ⟨none, none, some (qualValue lhs (coerceNumeric pf lhs v)), none⟩)
       ∨ (op = TokenType.tokenLT ∧
            q = ⟨none, none, none, some (qualValue lhs (coerceNumeric pf lhs v))⟩)) := by
  have hmr : makeRange pf lhs op rhs = rangeCore lhs op (coerceNumeric pf lhs v) := by
    unfold makeRange
    rw [hv]
  rcases hop with h | h | h | h <;> subst h
  · refine ⟨⟨some (qualValue lhs (coerceNumeric pf lhs v)), none, none, none⟩, ?_,
      Or.inl ⟨rfl, rfl⟩⟩
    rw [hmr]
    unfold rangeCore qualField qualValue Nested
    cases hn : lhs.NestedB <;> simp [hn]
  · refine ⟨⟨none, some (qualValue lhs (coerceNumeric pf lhs v)), none, none⟩, ?_,
      Or.inr (Or.inl ⟨rfl, rfl⟩)⟩
    rw [hmr]
    unfold rangeCore qualField qualValue Nested
    cases hn : lhs.NestedB <;> simp [hn]
  · refine ⟨⟨none, none, some (qualValue lhs (coerceNumeric pf lhs v)), none⟩, ?_,
      Or.inr (Or.inr (Or.inl ⟨rfl, rfl⟩))⟩
    rw [hmr]
    unfold rangeCore qualField qualValue Nested
    cases hn : lhs.NestedB <;> simp [hn]
  · refine ⟨⟨none, none, none, some (qualValue lhs (coerceNumeric pf lhs v))⟩, ?_,
      Or.inr (Or.inr (Or.inr ⟨rfl, rfl⟩))⟩
    rw [hmr]
    unfold rangeCore qualField qualValue Nested
    cases hn : lhs.NestedB <;> simp [hn]

/-- Claim C6: in `makeRange`, once the right-hand scalar is extracted, the
numeric coercion is applied before qualification and bound construction
(`makeRange` equals `rangeCore` at the coerced value); the coercion replaces
the scalar by the parsed float exactly when the field is numeric and the
scalar is a string accepted by `strconv.ParseFloat`, and leaves the scalar
unchanged when the field is not numeric, when the scalar is not a string, or
when the string does not parse. -/
theorem makeRange_numeric_coercion (pf : String → Option Float64)
    (lhs : FieldType) (op : TokenType) (rhs : Node) (v : GoVal)
    (hv : scalar rhs = some v) :
    makeRange pf lhs op rhs = rangeCore lhs op (coerceNumeric pf lhs v)
    ∧ (∀ s f, v = GoVal.vstr s → lhs.NumericB = true → pf s = some f →
        coerceNumeric pf lhs v = GoVal.vfloat f)
    ∧ (∀ s, v = GoVal.vstr s → pf s = none → coerceNumeric pf lhs v = v)
    ∧ (lhs.NumericB = false → coerceNumeric pf lhs v = v)
    ∧ ((∀ s, v ≠ GoVal.vstr s) → coerceNumeric pf lhs v = v) := by
  refine ⟨?_, ?_, ?_, ?_, ?_⟩
  · unfold makeRange
    rw [hv]
  · intro s f hvs hnum hpf
    subst hvs
    simp [coerceNumeric, hnum, hpf]
  · intro s hvs hpf
    subst hvs
    cases hnum : lhs.NumericB <;> simp [coerceNumeric, hnum, hpf]
  · intro hnum
    simp [coerceNumeric, hnum]
  · intro hns
    cases v with
    | vstr s => exact absurd rfl (hns s)
    | vint i => cases hnum : lhs.NumericB <;> simp [coerceNumeric, hnum]
    | vfloat f => cases hnum : lhs.NumericB <;> simp [coerceNumeric, hnum]

/-- Claim C7 counterexample: the identifier text "t" is accepted as a
scalar by `scalar` (Go's `strconv.ParseBool` accepts it), although "t" is
neither of the boolean literals "true" and "false" — so acceptance is not
equivalent to the text being "true" or "false". -/
theorem scalar_identity_bool_cex :
    scalar (Node.identityNode ⟨"t", "t", false⟩) = some (GoVal.vstr "t")
    ∧ ("t" : String) ≠ "true" ∧ ("t" : String) ≠ "false" :=
  ⟨rfl, by decide, by decide⟩

/-- Claim C7 (amended): an identifier leaf is accepted as a scalar exactly
when Go's `strconv.ParseBool` accepts its text — that is, when the text is
one of 1, t, T, true, TRUE, True, 0, f, F, false, FALSE, False — in which
case the identifier's text itself is returned with ok=true; for any other
text the result is ok=false. -/
theorem scalar_identity_bool (n : IdentNode) :
    (scalar (Node.identityNode n) = some (GoVal.vstr n.text) ∨
      scalar (Node.identityNode n) = none)
    ∧ (scalar (Node.identityNode n) = some (GoVal.vstr n.text) ↔
        (parseBool n.text).isSome)
    ∧ ((parseBool n.text).isSome ↔
        (n.text = "1" ∨ n.text = "t" ∨ n.text = "T" ∨ n.text = "true" ∨
         n.text = "TRUE" ∨ n.text = "True" ∨ n.text = "0" ∨ n.text = "f" ∨
         n.text = "F" ∨ n.text = "false" ∨ n.text = "FALSE" ∨ n.text = "False")) := by
  refine ⟨?_, ?_, ?_⟩
  · cases hp : parseBool n.text with
    | some b => exact Or.inl (by simp [scalar, hp])
    | none => exact Or.inr (by simp [scalar, hp])
  · cases hp : parseBool n.text with
    | some b => simp [scalar, hp]
    | none => simp [scalar, hp]
  · unfold parseBool
    by_cases h1 : n.text = "1" ∨ n.text = "t" ∨ n.text = "T" ∨ n.text = "true" ∨
        n.text = "TRUE" ∨ n.text = "True"
    · simp [h1]
      tauto
    · by_cases h2 : n.text = "0" ∨ n.text = "f" ∨ n.text = "F" ∨ n.text = "false" ∨
          n.text = "FALSE" ∨ n.text = "False"
      · simp [h1, h2]
      · simp [h1, h2]

/-- Claim C8: every Nested envelope a builder produces has a path equal to
the owning descriptor's `Path` — except time-window compilation, whose path
is the descriptor's `Field` name used as a synthetic path — and for a nested
descriptor every builder's successful output is wrapped in exactly one
Nested envelope: the output is a Nested node at the top whose wrapped filter
contains no further envelope, while for a non-nested descriptor the range,
between and wildcard builders produce no envelope at all. -/
theorem builders_nested_envelope (pf : String → Option Float64) (lhs : FieldType)
    (op : TokenType) (rhs : Node) (lower upper : GoVal) (pat : String)
    (threshold window ts : Int) :
    (∀ f, makeRange pf lhs op rhs = .ok f →
        (lhs.NestedB = true → ∃ g, f = Filter.nested lhs.Path g ∧ countNested g = 0)
      ∧ (lhs.NestedB = false → countNested f = 0))
    ∧ (∀ f, makeBetween lhs lower upper = .ok f →
        (lhs.NestedB = true → ∃ g, f = Filter.nested lhs.Path g ∧ countNested g = 0)
      ∧ (lhs.NestedB = false → countNested f = 0))
    ∧ (∀ f, makeWildcard lhs pat = .ok f →
        (lhs.NestedB = true → ∃ g, f = Filter.nested lhs.Path g ∧ countNested g = 0)
      ∧ (lhs.NestedB = false → countNested f = 0))
    ∧ (∀ f, makeTimeWindowQuery lhs threshold window ts = .ok f →
        ∃ g, f = Filter.nested lhs.Field g ∧ countNested g = 0) := by
  refine ⟨?_, ?_, ?_, ?_⟩
  · intro f hf
    unfold makeRange at hf
    cases hs : scalar rhs with
    | none =>
      rw [hs] at hf
      exact absurd hf (by simp)
    | some v =>
      rw [hs] at hf
      unfold rangeCore Nested at hf
      cases op <;> cases hn : lhs.NestedB <;> simp [hn] at hf <;>
        constructor <;> intro h <;> try simp [hn] at h
      all_goals first
        | exact ⟨_, hf.symm, by simp [countNested]⟩
        | simp [← hf, countNested]
  · intro f hf
    unfold makeBetween at hf
    cases hn : lhs.NestedB <;> simp [hn] at hf <;> constructor <;>
      intro h <;> try simp [hn] at h
    · simp [← hf, countNested, countNestedList]
    · exact ⟨_, hf.symm, by simp [countNested, countNestedList, Term]⟩
  · intro f hf
    unfold makeWildcard Wildcard at hf
    cases hn : lhs.NestedB <;> simp [hn] at hf <;> constructor <;>
      intro h <;> try simp [hn] at h
    · simp [← hf, countNested]
    · exact ⟨_, hf.symm, by simp [countNested, countNestedList, Term]⟩
  · intro f hf
    unfold makeTimeWindowQuery at hf
    simp at hf
    exact ⟨_, hf.symm, by simp [countNested, countNestedList, Term]⟩

/-- Claim C9: `makeRange` fails exactly when the right-hand scalar
extraction fails (`unsupportedType`) or the operator is outside the four
supported comparisons (`unsupportedOperator` carrying the operator) — an
error carries no partial output, the error branch of the result holds no
filter — and it succeeds whenever extraction succeeds and the operator is
supported; `makeBetween`, `makeWildcard` and `makeTimeWindowQuery` succeed
on every input. -/
theorem builders_error_conditions (pf : String → Option Float64) (lhs : FieldType)
    (op : TokenType) (rhs : Node) (lower upper : GoVal) (pat : String)
    (threshold window ts : Int) :
    (scalar rhs = none → makeRange pf lhs op rhs = .error EsErr.unsupportedType)
    ∧ (∀ v, scalar rhs = some v → isRangeOp op = false →
        makeRange pf lhs op rhs = .error (EsErr.unsupportedOperator op))
    ∧ (∀ v, scalar rhs = some v → isRangeOp op = true →
        ∃ f, makeRange pf lhs op rhs = .ok f)
    ∧ (∃ f, makeBetween lhs lower upper = .ok f)
    ∧ (∃ f, makeWildcard lhs pat = .ok f)
    ∧ (∃ f, makeTimeWindowQuery lhs threshold window ts = .ok f) := by
  refine ⟨?_, ?_, ?_, ?_, ?_, ?_⟩
  · intro hs
    unfold makeRange
    rw [hs]
  · intro v hs hop
    unfold makeRange
    rw [hs]
    cases op <;> simp [isRangeOp] at hop ⊢
    rfl
  · intro v hs hop
    unfold makeRange
    rw [hs]
    unfold rangeCore
    cases op <;> simp [isRangeOp] at hop ⊢
  · unfold makeBetween
    cases hn : lhs.NestedB <;> simp [hn]
  · unfold makeWildcard
    cases hn : lhs.NestedB <;> simp [hn]
  · exact ⟨_, rfl⟩

/-- Concrete ParseFloat model for instantiations: accepts only "2.5". -/
def pfEx : String → Option Float64 := fun s => if s = "2.5" then some ⟨25⟩ else none

/-- Concrete non-nested numeric field descriptor. -/
def lhsEx : FieldType := ⟨"age", "", false, true, fun v => ("", v), fun _ => ""⟩

/-- Concrete nested field descriptor, shaped like the map_events example of
the source comments. -/
def lhsNestedEx : FieldType :=
  ⟨"v", "map_events", true, false, fun v => ("map_events.v", v), fun _ => "map_events.v"⟩

/-- Concrete mapper hitting only the name "key_name". -/
def mapEx : String → Option FieldType :=
  fun s => if s = "key_name" then some lhsEx else none

/-- Concrete identifier in the legacy dotted form. -/
def identEx : IdentNode := ⟨"key_name.xyz", "orig_text", false⟩

/-- Concrete integer number leaf. -/
def rhsNumEx : Node := Node.numberNode true 21 ⟨0⟩

/-- Concrete string leaf holding a float-parseable text. -/
def rhsStrEx : Node := Node.stringNode "2.5"

/-- Witness for the C1 theorem: a mapper missing the dotted identifier text
and its original text but hitting the first dotted part resolves through the
legacy fallback. -/
theorem esName_fallback_order_witness :
    mapEx "key_name.xyz" = none
    ∧ splitN2 "key_name.xyz" = ["key_name", "xyz"]
    ∧ mapEx "key_name" = some lhsEx
    ∧ esName mapEx (Node.identityNode identEx) = Except.ok lhsEx :=
  ⟨rfl, rfl, rfl,
    (esName_fallback_order mapEx (Node.identityNode identEx) identEx).2.2.2.1
      "key_name" "xyz" lhsEx rfl (fun _ => rfl) rfl rfl⟩

/-- Witness for the C2 theorem at a non-nested numeric field, the GE
operator and the integer leaf 21. -/
theorem makeRange_shape_witness :
    scalar rhsNumEx = some (GoVal.vint 21)
    ∧ (∃ q : RangeQry,
        makeRange pfEx lhsEx TokenType.tokenGE rhsNumEx =
          .ok (if lhsEx.NestedB then
                 Filter.nested lhsEx.Path
                   (Filter.range (qualField lhsEx (coerceNumeric pfEx lhsEx (GoVal.vint 21))) q)
               else
                 Filter.range (qualField lhsEx (coerceNumeric pfEx lhsEx (GoVal.vint 21))) q)
        ∧ ((TokenType.tokenGE = TokenType.tokenGE ∧
              q = ⟨some (qualValue lhsEx (coerceNumeric pfEx lhsEx (GoVal.vint 21))),
                   none, none, none⟩)
         ∨ (TokenType.tokenGE = TokenType.tokenLE ∧
              q = ⟨none, some (qualValue lhsEx (coerceNumeric pfEx lhsEx (GoVal.vint 21))),
                   none, none⟩)
         ∨ (TokenType.tokenGE = TokenType.tokenGT ∧
              q = ⟨none, none, some (qualValue lhsEx (coerceNumeric pfEx lhsEx (GoVal.vint 21))),
                   none⟩)
         ∨ (TokenType.tokenGE = TokenType.tokenLT ∧
              q = ⟨none, none, none,
                   some (qualValue lhsEx (coerceNumeric pfEx lhsEx (GoVal.vint 21)))⟩))) :=
  ⟨rfl, makeRange_shape pfEx lhsEx TokenType.tokenGE rhsNumEx (GoVal.vint 21) rfl (Or.inl rfl)⟩

/-- Witness for the C6 theorem at a numeric field and the string leaf "2.5",
which the ParseFloat model accepts: the embedded scalar becomes the parsed
float. -/
theorem makeRange_numeric_coercion_witness :
    scalar rhsStrEx = some (GoVal.vstr "2.5")
    ∧ (makeRange pfEx lhsEx TokenType.tokenGE rhsStrEx =
         rangeCore lhsEx TokenType.tokenGE (coerceNumeric pfEx lhsEx (GoVal.vstr "2.5"))
      ∧ (∀ s f, GoVal.vstr "2.5" = GoVal.vstr s → lhsEx.NumericB = true → pfEx s = some f →
          coerceNumeric pfEx lhsEx (GoVal.vstr "2.5") = GoVal.vfloat f)
      ∧ (∀ s, GoVal.vstr "2.5" = GoVal.vstr s → pfEx s = none →
          coerceNumeric pfEx lhsEx (GoVal.vstr "2.5") = GoVal.vstr "2.5")
      ∧ (lhsEx.NumericB = false →
          coerceNumeric pfEx lhsEx (GoVal.vstr "2.5") = GoVal.vstr "2.5")
      ∧ ((∀ s, GoVal.vstr "2.5" ≠ GoVal.vstr s) →
          coerceNumeric pfEx lhsEx (GoVal.vstr "2.5") = GoVal.vstr "2.5"))
    ∧ coerceNumeric pfEx lhsEx (GoVal.vstr "2.5") = GoVal.vfloat ⟨25⟩ :=
  ⟨rfl,
   makeRange_numeric_coercion pfEx lhsEx TokenType.tokenGE rhsStrEx (GoVal.vstr "2.5") rfl,
   (makeRange_numeric_coercion pfEx lhsEx TokenType.tokenGE rhsStrEx
      (GoVal.vstr "2.5") rfl).2.1 "2.5" ⟨25⟩ rfl rfl rfl⟩

/-- Witness for the amended C7 theorem: the identifier text "TRUE" is
accepted and returned as itself. -/
theorem scalar_identity_bool_witness :
    scalar (Node.identityNode ⟨"TRUE", "TRUE", false⟩) = some (GoVal.vstr "TRUE") :=
  (scalar_identity_bool ⟨"TRUE", "TRUE", false⟩).2.1.mpr (by decide)

/-- Concrete between output for the nested example descriptor. -/
def betweenOutEx : Filter :=
  Filter.nested "map_events" (Filter.andF
    [Filter.range "v" ⟨none, none, some (GoVal.vint 7), none⟩,
     Filter.range "v" ⟨none, none, none, some (GoVal.vint 15)⟩,
     Filter.term "k" (GoVal.vstr "v")])

/-- Witness for the C8 theorem: the between builder at the nested example
descriptor produces exactly one Nested envelope with the descriptor's
path. -/
theorem builders_nested_envelope_witness :
    makeBetween lhsNestedEx (GoVal.vint 7) (GoVal.vint 15) = Except.ok betweenOutEx
    ∧ lhsNestedEx.NestedB = true
    ∧ (∃ g, betweenOutEx = Filter.nested lhsNestedEx.Path g ∧ countNested g = 0) :=
  ⟨rfl, rfl,
    ((builders_nested_envelope pfEx lhsNestedEx TokenType.tokenGE rhsNumEx
        (GoVal.vint 7) (GoVal.vint 15) "pat" 1 2 3).2.1 betweenOutEx rfl).1 rfl⟩

/-- Witness for the C9 theorem: a non-scalar node makes `makeRange` fail
with the unsupported-type error. -/
theorem builders_error_conditions_witness :
    scalar (Node.otherNode "BinaryNode") = none
    ∧ makeRange pfEx lhsEx TokenType.tokenGE (Node.otherNode "BinaryNode") =
        Except.error EsErr.unsupportedType :=
  ⟨rfl,
    (builders_error_conditions pfEx lhsEx TokenType.tokenGE (Node.otherNode "BinaryNode")
      (GoVal.vint 7) (GoVal.vint 15) "pat" 1 2 3).1 rfl⟩

end Es2gen
